import Mathlib

/-!
The buffer factory of `pkg/buffer/factory.go`

A shallow embedding of the registry that hands out one stream buffer and one
RTCP reader per SSRC.

* Go maps `map[uint32]*T` are total functions from the key to an optional
  pointer; a missing key reads as the nil pointer.  The keys are `uint32`
  values on which no arithmetic is done, so they are natural numbers here.
* Pointers are addresses into a heap that only grows: the address of a new
  object is the current size of the heap, hence different from every address
  handed out before.
* A Go interface value is either the nil interface or a dynamic type together
  with a pointer, and the pointer may itself be nil.
* The embedded `sync.RWMutex` is taken and released around every method body
  and around every close callback; in this sequential embedding each of them
  is one atomic step.
-/

namespace buffer

/-- A heap address. -/
abbrev Ptr := Nat

/-- The Go map types `map[uint32]*buffer` and `map[uint32]*reader`: the value
stored under a key, `none` when the key is not in the map. -/
abbrev GoMap := Nat → Option Ptr

/-- The Go expression `make(map[uint32]*T)`. -/
def GoMap.make : GoMap := fun _ => none

/-- The Go statement `m[k] = v`. -/
def GoMap.set (m : GoMap) (k : Nat) (v : Ptr) : GoMap :=
  fun x => if x = k then some v else m x

/-- The Go statement `delete(m, k)`; deleting a missing key does nothing. -/
def GoMap.delete (m : GoMap) (k : Nat) : GoMap :=
  fun x => if x = k then none else m x

/-- The type `packetio.BufferPacketType` of pion/transport, an `int`. -/
abbrev BufferPacketType := Int

/-- The constant `packetio.RTPBufferPacket`. -/
def RTPBufferPacket : BufferPacketType := 1

/-- The constant `packetio.RTCPBufferPacket`. -/
def RTCPBufferPacket : BufferPacketType := 2

/-- The struct `logr.Logger`: a sink (none for the nil sink) and a level.
`logr.Logger{}` is the value with no sink and level 0. -/
structure LogrLogger where
  sink : Option Nat
  level : Int
  deriving DecidableEq, Repr

/-- The zero value `logr.Logger{}`. -/
def LogrLogger.zero : LogrLogger := ⟨none, 0⟩

/-- Multiplication of two Go `int` values (64 bits, wrapping). -/
def intMul (a b : Int) : Int := Int.bmod (a * b) (2 ^ 64)

/-- The allocation limit of the Go run time on 64-bit platforms
(`maxAlloc`), in bytes. -/
def maxAlloc : Int := 2 ^ 48

/-- The Go expression `make([]byte, n)`: a zeroed block of `n` bytes, and a
run-time panic (`none`, "len out of range") when `n` is negative or above the
allocation limit.  A machine that runs out of memory below that limit is not
modelled. -/
def makeBytes (n : Int) : Option (List UInt8) :=
  if 0 ≤ n ∧ n ≤ maxAlloc then some (List.replicate n.toNat 0) else none

/-- A `sync.Pool` as the factory builds it: only its `New` function is set. -/
structure Pool where
  New : Unit → Option (List UInt8)

/-- The dynamic type of a created object: `*buffer` or `*reader`. -/
inductive ObjType
  | buffer
  | reader
  deriving DecidableEq, Repr

/-- The two closures that `GetOrNew` passes to `OnClose`.  Each captures the
factory and the value of `ssrc` of the call that created it. -/
inductive Callback
  | deleteRtcpReader (ssrc : Nat)
  | deleteRtpBuffer (ssrc : Nat)
  deriving DecidableEq, Repr

/-- Modelled from the spec: the buffer and reader objects, whose declarations
are in files that are absent here.  The spec treats them as objects that are
built for an SSRC (a stream buffer also gets both pools and the logging sink),
accept one registered close callback, and become closed. -/
structure Obj where
  type : ObjType
  ssrc : Nat
  seed : Option (Pool × Pool × LogrLogger)
  onClose : Option Callback
  closed : Bool

/-- The struct `factory` (the mutex is left out, see the header). -/
structure factory where
  videoPool : Pool
  audioPool : Pool
  rtpBuffers : GoMap
  rtcpReaders : GoMap
  logger : LogrLogger

/-- The registry together with the objects it has created. -/
structure State where
  f : factory
  heap : List Obj

/-- A Go interface value (`io.ReadWriteCloser`, `Buffer` or `RTCPReader`):
the nil interface, or a dynamic type with a pointer that may be nil. -/
inductive Iface
  | nil
  | val (t : ObjType) (p : Option Ptr)
  deriving DecidableEq, Repr

/-- The Go comparison `i == nil` on an interface value: only the nil interface
is equal to nil, an interface that wraps a nil pointer is not. -/
def Iface.isNil : Iface → Bool
  | .nil => true
  | .val _ _ => false

/-- The function `NewBufferFactory`.  The package variable `Logger` is passed
in and its new value is returned next to the factory; the constant
`maxPktSize`, declared in an absent file, is a parameter. -/
def NewBufferFactory (maxPktSize : Int) (Logger : LogrLogger)
    (trackingPackets : Int) (logger : LogrLogger) : factory × LogrLogger :=
  let (logger, Logger) :=
    if logger = LogrLogger.zero then (Logger, Logger) else (logger, logger)
  ({ videoPool := { New := fun _ => makeBytes (intMul trackingPackets maxPktSize) }
     audioPool := { New := fun _ => makeBytes (intMul maxPktSize 25) }
     rtpBuffers := GoMap.make
     rtcpReaders := GoMap.make
     logger := logger }, Logger)

/-- Modelled from the spec: the constructor `NewRTCPReader` of an absent
file.  It allocates a new reader that is seeded with the SSRC only. -/
def NewRTCPReader (st : State) (ssrc : Nat) : Ptr × State :=
  (st.heap.length,
    { st with heap := st.heap ++ [⟨ObjType.reader, ssrc, none, none, false⟩] })

/-- Modelled from the spec: the constructor `NewBuffer` of an absent file.
It allocates a new stream buffer that is seeded with the SSRC, both pools
and the logging sink. -/
def NewBuffer (st : State) (ssrc : Nat) (videoPool audioPool : Pool)
    (logger : LogrLogger) : Ptr × State :=
  (st.heap.length,
    { st with heap := st.heap ++
        [⟨ObjType.buffer, ssrc, some (videoPool, audioPool, logger), none, false⟩] })

/-- Modelled from the spec: the method `OnClose` of the created objects, which
registers the single close callback of the object at `p`. -/
def OnClose (st : State) (p : Ptr) (fn : Callback) : State :=
  match st.heap[p]? with
  | some o => { st with heap := st.heap.set p { o with onClose := some fn } }
  | none => st

/-- The bodies of the two closures of `GetOrNew`:
`delete(f.rtcpReaders, ssrc)` and `delete(f.rtpBuffers, ssrc)`. -/
def Callback.run : Callback → factory → factory
  | .deleteRtcpReader ssrc, f => { f with rtcpReaders := f.rtcpReaders.delete ssrc }
  | .deleteRtpBuffer ssrc, f => { f with rtpBuffers := f.rtpBuffers.delete ssrc }

/-- The method `GetOrNew`. -/
def GetOrNew (st : State) (packetType : BufferPacketType) (ssrc : Nat) : Iface × State :=
  if packetType = RTCPBufferPacket then
    match st.f.rtcpReaders ssrc with
    | some reader => (Iface.val ObjType.reader (some reader), st)
    | none =>
      let (reader, st) := NewRTCPReader st ssrc
      let st := { st with f := { st.f with rtcpReaders := st.f.rtcpReaders.set ssrc reader } }
      let st := OnClose st reader (Callback.deleteRtcpReader ssrc)
      (Iface.val ObjType.reader (some reader), st)
  else if packetType = RTPBufferPacket then
    match st.f.rtpBuffers ssrc with
    | some reader => (Iface.val ObjType.buffer (some reader), st)
    | none =>
      let (buffer, st) := NewBuffer st ssrc st.f.videoPool st.f.audioPool st.f.logger
      let st := { st with f := { st.f with rtpBuffers := st.f.rtpBuffers.set ssrc buffer } }
      let st := OnClose st buffer (Callback.deleteRtpBuffer ssrc)
      (Iface.val ObjType.buffer (some buffer), st)
  else
    (Iface.nil, st)

/-- The method `GetBufferPair`.  Each map read is converted to the interface
type of its result, so a missing key gives an interface that wraps the nil
pointer. -/
def GetBufferPair (st : State) (ssrc : Nat) : (Iface × Iface) × State :=
  ((Iface.val ObjType.buffer (st.f.rtpBuffers ssrc),
    Iface.val ObjType.reader (st.f.rtcpReaders ssrc)), st)

/-- The method `GetBuffer`. -/
def GetBuffer (st : State) (ssrc : Nat) : Iface × State :=
  (Iface.val ObjType.buffer (st.f.rtpBuffers ssrc), st)

/-- The method `GetRTCPReader`. -/
def GetRTCPReader (st : State) (ssrc : Nat) : Iface × State :=
  (Iface.val ObjType.reader (st.f.rtcpReaders ssrc), st)

/-- The call `o.onClose()` that the object at `p` makes when it closes: the
registered closure runs on the factory.  The call faults (`none`) when there
is no such object or no closure was registered. -/
def fireOnClose (st : State) (p : Ptr) : Option State :=
  match st.heap[p]? with
  | some o =>
    match o.onClose with
    | some fn => some { st with f := fn.run st.f }
    | none => none
  | none => none

/-- Modelled from the spec: the method `Close` of the created objects, which
"must invoke the callback exactly once" when the object "transitions to
closed"; closing a closed object does nothing. -/
def Close (st : State) (p : Ptr) : Option State :=
  match st.heap[p]? with
  | some o =>
    if o.closed then some st
    else fireOnClose { st with heap := st.heap.set p { o with closed := true } } p
  | none => none

/-- The dynamic type of the objects of a packet type. -/
def kindType (packetType : BufferPacketType) : ObjType :=
  if packetType = RTCPBufferPacket then ObjType.reader else ObjType.buffer

/-- The table of the factory that holds the objects of a dynamic type. -/
def tableOf (f : factory) : ObjType → GoMap
  | ObjType.buffer => f.rtpBuffers
  | ObjType.reader => f.rtcpReaders

/-- The closure that `GetOrNew` registers on an object of type `t` that it
creates for `ssrc`. -/
def callbackOf (t : ObjType) (ssrc : Nat) : Callback :=
  match t with
  | ObjType.buffer => Callback.deleteRtpBuffer ssrc
  | ObjType.reader => Callback.deleteRtcpReader ssrc

/-- The address `p` holds an object the way `GetOrNew` creates it for the
type `t` and the key `ssrc`: of that type, built for that SSRC, with the
closure of that table and key registered. -/
def isHandleFor (st : State) (p : Ptr) (t : ObjType) (ssrc : Nat) : Bool :=
  match st.heap[p]? with
  | some o => decide (o.type = t ∧ o.ssrc = ssrc ∧ o.onClose = some (callbackOf t ssrc))
  | none => false

/-- The address `p` holds an object of type `t` for `ssrc` that has not
closed. -/
def isLive (st : State) (p : Ptr) (t : ObjType) (ssrc : Nat) : Bool :=
  match st.heap[p]? with
  | some o => decide (o.type = t ∧ o.ssrc = ssrc ∧ o.closed = false)
  | none => false

/-- Well-formed registry states: every table entry is the address of an
object that `GetOrNew` created for that table and key. -/
def State.WF (st : State) : Prop :=
  ∀ t ssrc p, tableOf st.f t ssrc = some p → isHandleFor st p t ssrc = true

/-- The state of a program that has just built its registry: the result of
`NewBufferFactory` and no created object. -/
def newState (maxPktSize : Int) (Logger : LogrLogger) (trackingPackets : Int)
    (logger : LogrLogger) : State :=
  { f := (NewBufferFactory maxPktSize Logger trackingPackets logger).1, heap := [] }

/-- The events of a registry: the four methods, and an object that closes. -/
inductive Op
  | getOrNew (packetType : BufferPacketType) (ssrc : Nat)
  | getBufferPair (ssrc : Nat)
  | getBuffer (ssrc : Nat)
  | getRTCPReader (ssrc : Nat)
  | close (p : Ptr)
  deriving DecidableEq, Repr

/-- The state after one event, `none` when the event faults. -/
def Op.run (st : State) : Op → Option State
  | Op.getOrNew packetType ssrc => some (GetOrNew st packetType ssrc).2
  | Op.getBufferPair ssrc => some (GetBufferPair st ssrc).2
  | Op.getBuffer ssrc => some (GetBuffer st ssrc).2
  | Op.getRTCPReader ssrc => some (GetRTCPReader st ssrc).2
  | Op.close p => Close st p

/-- The state after a sequence of events. -/
def runOps (st : State) : List Op → Option State
  | [] => some st
  | op :: ops =>
    match op.run st with
    | some st1 => runOps st1 ops
    | none => none

/-- The event runs, in the state `st`, the close callback of the table of `t`
and the key `ssrc`. -/
def Op.firesFor (st : State) (t : ObjType) (ssrc : Nat) : Op → Bool
  | Op.close p =>
    match st.heap[p]? with
    | some o => !o.closed && decide (o.onClose = some (callbackOf t ssrc))
    | none => false
  | _ => false

/-- No event of the sequence, run from `st`, runs the close callback of the
table of `t` and the key `ssrc`. -/
def noCallbackFor (t : ObjType) (ssrc : Nat) : State → List Op → Bool
  | _, [] => true
  | st, op :: ops =>
    !op.firesFor st t ssrc &&
      match op.run st with
      | some st1 => noCallbackFor t ssrc st1 ops
      | none => true

/-- The states a program reaches from a new registry by calls of `GetOrNew`,
by lookups, and by objects that close. -/
inductive Reachable : State → Prop
  | new (maxPktSize : Int) (Logger : LogrLogger) (trackingPackets : Int)
      (logger : LogrLogger) :
      Reachable (newState maxPktSize Logger trackingPackets logger)
  | step (st st1 : State) (op : Op) :
      Reachable st → op.run st = some st1 → Reachable st1

/-- The lookup method of the table of `t`: `GetBuffer` for stream buffers and
`GetRTCPReader` for readers. -/
def lookupOf (st : State) (t : ObjType) (ssrc : Nat) : Iface :=
  match t with
  | ObjType.buffer => (GetBuffer st ssrc).1
  | ObjType.reader => (GetRTCPReader st ssrc).1

/-- The invariant of the reachable states: every object has the closure of
its own table and key registered, every object that has not closed is the
entry of its table under its key, and every table entry is such an object. -/
def State.Inv (st : State) : Prop :=
  (∀ (p : Ptr) (o : Obj), st.heap[p]? = some o →
    o.onClose = some (callbackOf o.type o.ssrc)) ∧
  (∀ (p : Ptr) (o : Obj), st.heap[p]? = some o → o.closed = false →
    tableOf st.f o.type o.ssrc = some p) ∧
  (∀ t ssrc p, tableOf st.f t ssrc = some p →
    ∃ o, st.heap[p]? = some o ∧ o.type = t ∧ o.ssrc = ssrc ∧ o.closed = false)

/-! ## A small run -/

/-- A new registry for 100 tracked packets of at most 1500 bytes, built with
no logging sink. -/
def demoState : State := newState 1500 LogrLogger.zero 100 LogrLogger.zero

/-- The registry after the stream buffer of SSRC 1001 was acquired. -/
def demoFirst : State := (GetOrNew demoState RTPBufferPacket 1001).2

/-- A lookup, two more acquisitions, the close of the reader at address 1 and
another lookup. -/
def demoOps : List Op :=
  [Op.getBuffer 1001, Op.getOrNew RTCPBufferPacket 1001, Op.getOrNew RTPBufferPacket 7,
    Op.close 1, Op.getBufferPair 1001]

/-- The registry after the three acquisitions of the run. -/
def demoMid : State :=
  (GetOrNew (GetOrNew demoFirst RTCPBufferPacket 1001).2 RTPBufferPacket 7).2

/-- The registry at the end of the run: the reader of SSRC 1001 has closed
and its entry is gone. -/
def demoEnd : State :=
  { f := (Callback.deleteRtcpReader 1001).run demoMid.f
    heap := demoMid.heap.set 1
      ⟨ObjType.reader, 1001, none, some (Callback.deleteRtcpReader 1001), true⟩ }

/-! ## Sequences of constructions, effects, callback invocations -/

/-- A sequence of `NewBufferFactory` calls, each with its capacity and its
sink, run in order from the value `Logger` of the package variable: the
factories they return and the final value of the variable. -/
def newFactories (maxPktSize : Int) (Logger : LogrLogger) :
    List (Int × LogrLogger) → List factory × LogrLogger
  | [] => ([], Logger)
  | (trackingPackets, logger) :: rest =>
    let r := NewBufferFactory maxPktSize Logger trackingPackets logger
    let rs := newFactories maxPktSize r.2 rest
    (r.1 :: rs.1, rs.2)

/-- The last sink of a sequence that is not `logr.Logger{}`, and `d` when
there is none. -/
def lastSink (d : LogrLogger) : List LogrLogger → LogrLogger
  | [] => d
  | l :: rest => lastSink (if l = LogrLogger.zero then d else l) rest

/-- A write that `GetOrNew` performs: the map assignment
`f.rtpBuffers[ssrc] = buffer` or `f.rtcpReaders[ssrc] = reader`, and the
registration `OnClose(fn)` on the object at `p`. -/
inductive Effect
  | mapSet (t : ObjType) (ssrc : Nat) (p : Ptr)
  | onClose (p : Ptr) (fn : Callback)
  deriving DecidableEq, Repr

/-- The writes of one call of `GetOrNew`, statement by statement in program
order: none on the two early returns and on the final `return nil`, the map
assignment and the registration on the two paths that construct. -/
def GetOrNewEffects (st : State) (packetType : BufferPacketType) (ssrc : Nat) :
    List Effect :=
  if packetType = RTCPBufferPacket then
    match st.f.rtcpReaders ssrc with
    | some _ => []
    | none =>
      let (reader, _) := NewRTCPReader st ssrc
      [Effect.mapSet ObjType.reader ssrc reader,
        Effect.onClose reader (Callback.deleteRtcpReader ssrc)]
  else if packetType = RTPBufferPacket then
    match st.f.rtpBuffers ssrc with
    | some _ => []
    | none =>
      let (buffer, _) := NewBuffer st ssrc st.f.videoPool st.f.audioPool st.f.logger
      [Effect.mapSet ObjType.buffer ssrc buffer,
        Effect.onClose buffer (Callback.deleteRtpBuffer ssrc)]
  else
    []

/-- The states a program reaches from a new registry by calls of `GetOrNew`
and by invocations of registered close callbacks, with no bound on how often
the callback of an object is invoked. -/
inductive RawReachable : State → Prop
  | new (maxPktSize : Int) (Logger : LogrLogger) (trackingPackets : Int)
      (logger : LogrLogger) :
      RawReachable (newState maxPktSize Logger trackingPackets logger)
  | getOrNew (st : State) (packetType : BufferPacketType) (ssrc : Nat) :
      RawReachable st → RawReachable (GetOrNew st packetType ssrc).2
  | onClose (st st1 : State) (p : Ptr) :
      RawReachable st → fireOnClose st p = some st1 → RawReachable st1

/-- The small registry after the close callback of the buffer at address 0,
the one of SSRC 1001, has run. -/
def demoClosed : State :=
  { demoFirst with f := (Callback.deleteRtpBuffer 1001).run demoFirst.f }

/-- The registry after SSRC 1001 was then acquired again. -/
def demoSecond : State := (GetOrNew demoClosed RTPBufferPacket 1001).2

/-- The registry after the callback of the first buffer has run once more. -/
def demoStale : State :=
  { demoSecond with f := (Callback.deleteRtpBuffer 1001).run demoSecond.f }

/-- Two sinks that are not `logr.Logger{}`. -/
def sinkA : LogrLogger := ⟨some 1, 0⟩

/-- The second of the two sinks. -/
def sinkB : LogrLogger := ⟨some 2, 0⟩

/-- The new registry after the RTCP reader of SSRC 1001 was acquired. -/
def demoReader : State := (GetOrNew demoState RTCPBufferPacket 1001).2

/-- That registry after the close callback of the reader at address 0 has
run. -/
def demoReaderClosed : State :=
  { demoReader with f := (Callback.deleteRtcpReader 1001).run demoReader.f }

/-! ## The heap -/

theorem heap_append_get (l : List Obj) (a : Obj) (p : Nat) :
    (l ++ [a])[p]? = if p < l.length then l[p]? else if p = l.length then some a else none := by
  rw [List.getElem?_append]
  split
  · rfl
  · split
    · subst_vars; simp
    · rcases h : p - l.length with _ | n
      · omega
      · simp

theorem heap_append_set (l : List Obj) (a b : Obj) :
    (l ++ [a]).set l.length b = l ++ [b] := by
  simp [List.set_append]

theorem heap_get_lt {l : List Obj} {p : Nat} {o : Obj} (h : l[p]? = some o) :
    p < l.length := by
  rcases List.getElem?_eq_some.1 h with ⟨hp, _⟩
  exact hp

/-! ## The effect of `GetOrNew` -/

theorem recognised_cases {k : BufferPacketType}
    (hk : k = RTPBufferPacket ∨ k = RTCPBufferPacket) :
    (k = RTPBufferPacket ∧ kindType k = ObjType.buffer) ∨
      (k = RTCPBufferPacket ∧ kindType k = ObjType.reader) := by
  rcases hk with rfl | rfl
  · left; exact ⟨rfl, by decide⟩
  · right; exact ⟨rfl, by decide⟩

theorem GetOrNew_hit (st : State) (k : BufferPacketType) (s : Nat) (p : Ptr)
    (hk : k = RTPBufferPacket ∨ k = RTCPBufferPacket)
    (h : tableOf st.f (kindType k) s = some p) :
    GetOrNew st k s = (Iface.val (kindType k) (some p), st) := by
  rcases recognised_cases hk with ⟨rfl, ht⟩ | ⟨rfl, ht⟩
  · rw [ht] at h ⊢
    simp only [tableOf] at h
    simp [GetOrNew, RTPBufferPacket, RTCPBufferPacket, h]
  · rw [ht] at h ⊢
    simp only [tableOf] at h
    simp [GetOrNew, h]

theorem GetOrNew_miss (st : State) (k : BufferPacketType) (s : Nat)
    (hk : k = RTPBufferPacket ∨ k = RTCPBufferPacket)
    (h : tableOf st.f (kindType k) s = none) :
    (GetOrNew st k s).1 = Iface.val (kindType k) (some st.heap.length) ∧
    ∃ o : Obj, (GetOrNew st k s).2.heap = st.heap ++ [o] ∧ o.type = kindType k ∧
      o.ssrc = s ∧ o.onClose = some (callbackOf (kindType k) s) ∧ o.closed = false ∧
      ∀ t1 s1, tableOf (GetOrNew st k s).2.f t1 s1 =
        if t1 = kindType k ∧ s1 = s then some st.heap.length else tableOf st.f t1 s1 := by
  rcases recognised_cases hk with ⟨rfl, ht⟩ | ⟨rfl, ht⟩
  · rw [ht] at h ⊢
    simp only [tableOf] at h
    simp only [GetOrNew, RTPBufferPacket, RTCPBufferPacket, h, NewBuffer, OnClose,
      List.getElem?_concat_length, heap_append_set]
    refine ⟨by simp, _, by simp; rfl, rfl, rfl, rfl, rfl, ?_⟩
    intro t1 s1
    cases t1 <;> simp [tableOf, GoMap.set]
  · rw [ht] at h ⊢
    simp only [tableOf] at h
    simp only [GetOrNew, h, NewRTCPReader, OnClose,
      List.getElem?_concat_length, heap_append_set]
    refine ⟨by simp, _, by simp; rfl, rfl, rfl, rfl, rfl, ?_⟩
    intro t1 s1
    cases t1 <;> simp [tableOf, GoMap.set]

theorem GetOrNew_unrecognised (st : State) (k : BufferPacketType) (s : Nat)
    (h1 : k ≠ RTPBufferPacket) (h2 : k ≠ RTCPBufferPacket) :
    GetOrNew st k s = (Iface.nil, st) := by
  simp [GetOrNew, h1, h2]

theorem GetOrNew_result (st : State) (k : BufferPacketType) (s : Nat)
    (hk : k = RTPBufferPacket ∨ k = RTCPBufferPacket) :
    ∃ p, (GetOrNew st k s).1 = Iface.val (kindType k) (some p) ∧
      tableOf (GetOrNew st k s).2.f (kindType k) s = some p := by
  rcases h : tableOf st.f (kindType k) s with _ | p
  · obtain ⟨h1, o, _, _, _, _, _, ht⟩ := GetOrNew_miss st k s hk h
    exact ⟨st.heap.length, h1, by rw [ht]; simp⟩
  · refine ⟨p, ?_, ?_⟩ <;> rw [GetOrNew_hit st k s p hk h]
    exact h

theorem GetOrNew_table_mono (st : State) (k : BufferPacketType) (s : Nat)
    (t1 : ObjType) (s1 : Nat) (p : Ptr) (h : tableOf st.f t1 s1 = some p) :
    tableOf (GetOrNew st k s).2.f t1 s1 = some p := by
  by_cases hk : k = RTPBufferPacket ∨ k = RTCPBufferPacket
  · rcases hm : tableOf st.f (kindType k) s with _ | q
    · obtain ⟨_, o, _, _, _, _, _, ht⟩ := GetOrNew_miss st k s hk hm
      rw [ht]
      split
      · rename_i hc
        rw [hc.1, hc.2, hm] at h
        cases h
      · exact h
    · rw [GetOrNew_hit st k s q hk hm]
      exact h
  · rw [GetOrNew_unrecognised st k s (fun e => hk (Or.inl e)) (fun e => hk (Or.inr e))]
    exact h

theorem GetOrNew_heap_mono (st : State) (k : BufferPacketType) (s : Nat)
    (p : Ptr) (o : Obj) (h : st.heap[p]? = some o) :
    (GetOrNew st k s).2.heap[p]? = some o := by
  by_cases hk : k = RTPBufferPacket ∨ k = RTCPBufferPacket
  · rcases hm : tableOf st.f (kindType k) s with _ | q
    · obtain ⟨_, o1, hh, _⟩ := GetOrNew_miss st k s hk hm
      rw [hh, heap_append_get, if_pos (heap_get_lt h)]
      exact h
    · rw [GetOrNew_hit st k s q hk hm]
      exact h
  · rw [GetOrNew_unrecognised st k s (fun e => hk (Or.inl e)) (fun e => hk (Or.inr e))]
    exact h

/-! ## The close callbacks -/

theorem callbackOf_surj (cb : Callback) : ∃ t s, cb = callbackOf t s := by
  cases cb with
  | deleteRtcpReader s => exact ⟨ObjType.reader, s, rfl⟩
  | deleteRtpBuffer s => exact ⟨ObjType.buffer, s, rfl⟩

theorem callbackOf_inj {t1 t2 : ObjType} {s1 s2 : Nat}
    (h : callbackOf t1 s1 = callbackOf t2 s2) : t1 = t2 ∧ s1 = s2 := by
  cases t1 <;> cases t2 <;> simp [callbackOf] at h <;> exact ⟨rfl, h⟩

theorem callback_table (f : factory) (t : ObjType) (s : Nat) (t1 : ObjType) (s1 : Nat) :
    tableOf ((callbackOf t s).run f) t1 s1 =
      if t1 = t ∧ s1 = s then none else tableOf f t1 s1 := by
  cases t <;> cases t1 <;> simp [callbackOf, Callback.run, tableOf, GoMap.delete]

theorem isHandleFor_iff (st : State) (p : Ptr) (t : ObjType) (s : Nat) :
    isHandleFor st p t s = true ↔
      ∃ o, st.heap[p]? = some o ∧ o.type = t ∧ o.ssrc = s ∧
        o.onClose = some (callbackOf t s) := by
  unfold isHandleFor
  rcases h : st.heap[p]? with _ | o
  · simp
  · simp

theorem isLive_iff (st : State) (p : Ptr) (t : ObjType) (s : Nat) :
    isLive st p t s = true ↔
      ∃ o, st.heap[p]? = some o ∧ o.type = t ∧ o.ssrc = s ∧ o.closed = false := by
  unfold isLive
  rcases h : st.heap[p]? with _ | o
  · simp
  · simp

theorem fireOnClose_handle (st : State) (p : Ptr) (t : ObjType) (s : Nat)
    (h : isHandleFor st p t s = true) :
    fireOnClose st p = some { st with f := (callbackOf t s).run st.f } := by
  obtain ⟨o, ho, _, _, hc⟩ := (isHandleFor_iff st p t s).1 h
  simp [fireOnClose, ho, hc]

theorem Close_cases (st st1 : State) (p : Ptr) (h : Close st p = some st1) :
    st1 = st ∨ ∃ o cb, st.heap[p]? = some o ∧ o.closed = false ∧ o.onClose = some cb ∧
      st1 = { f := cb.run st.f, heap := st.heap.set p { o with closed := true } } := by
  unfold Close at h
  rcases ho : st.heap[p]? with _ | o
  · simp [ho] at h
  · simp only [ho] at h
    by_cases hc : o.closed = true
    · simp [hc] at h
      exact Or.inl h.symm
    · simp only [hc] at h
      right
      have hp : p < st.heap.length := heap_get_lt ho
      simp only [fireOnClose, List.getElem?_set, hp, if_true] at h
      rcases hcb : o.onClose with _ | cb
      · simp [hcb] at h
      · simp [hcb] at h
        refine ⟨o, cb, rfl, by simpa using hc, hcb, ?_⟩
        rw [hcb]
        exact h.symm

/-! ## Events -/

theorem Op_run_table (st st1 : State) (op : Op) (t : ObjType) (s : Nat) (p : Ptr)
    (hrun : op.run st = some st1) (hno : op.firesFor st t s = false)
    (h : tableOf st.f t s = some p) : tableOf st1.f t s = some p := by
  cases op with
  | getOrNew k s1 =>
    simp only [Op.run, Option.some.injEq] at hrun
    rw [← hrun]
    exact GetOrNew_table_mono st k s1 t s p h
  | getBufferPair s1 =>
    simp only [Op.run, GetBufferPair, Option.some.injEq] at hrun
    rw [← hrun]; exact h
  | getBuffer s1 =>
    simp only [Op.run, GetBuffer, Option.some.injEq] at hrun
    rw [← hrun]; exact h
  | getRTCPReader s1 =>
    simp only [Op.run, GetRTCPReader, Option.some.injEq] at hrun
    rw [← hrun]; exact h
  | close q =>
    simp only [Op.run] at hrun
    rcases Close_cases st st1 q hrun with rfl | ⟨o, cb, ho, hc, hcb, rfl⟩
    · exact h
    · obtain ⟨t1, s1, rfl⟩ := callbackOf_surj cb
      simp only [Op.firesFor, ho, hc, hcb] at hno
      simp only [callback_table]
      rw [if_neg]
      · exact h
      · rintro ⟨rfl, rfl⟩
        simp at hno

theorem runOps_table (t : ObjType) (s : Nat) (p : Ptr) (ops : List Op) :
    ∀ st st1 : State, runOps st ops = some st1 → noCallbackFor t s st ops = true →
      tableOf st.f t s = some p → tableOf st1.f t s = some p := by
  induction ops with
  | nil =>
    intro st st1 hrun _ h
    simp only [runOps, Option.some.injEq] at hrun
    rw [← hrun]; exact h
  | cons op ops ih =>
    intro st st1 hrun hno h
    simp only [runOps] at hrun
    simp only [noCallbackFor, Bool.and_eq_true, Bool.not_eq_true'] at hno
    rcases hop : op.run st with _ | st2
    · simp [hop] at hrun
    · simp only [hop] at hrun hno
      exact ih st2 st1 hrun hno.2 (Op_run_table st st2 op t s p hop hno.1 h)

/-! ## Well-formed states -/

theorem WF_newState (m : Int) (L : LogrLogger) (n : Int) (l : LogrLogger) :
    (newState m L n l).WF := by
  intro t s p h
  cases t <;> simp [newState, NewBufferFactory, tableOf, GoMap.make] at h

theorem WF_GetOrNew (st : State) (k : BufferPacketType) (s : Nat) (hwf : st.WF) :
    (GetOrNew st k s).2.WF := by
  intro t1 s1 p h
  by_cases hk : k = RTPBufferPacket ∨ k = RTCPBufferPacket
  · rcases hm : tableOf st.f (kindType k) s with _ | q
    · obtain ⟨_, o, hh, h1, h2, h3, _, ht⟩ := GetOrNew_miss st k s hk hm
      rw [ht] at h
      rw [isHandleFor_iff, hh]
      split at h
      · rename_i hc
        cases h
        refine ⟨o, by simp, ?_, ?_, ?_⟩
        · rw [h1, hc.1]
        · rw [h2, hc.2]
        · rw [h3, hc.1, hc.2]
      · obtain ⟨o1, ho1, hrest⟩ := (isHandleFor_iff st p t1 s1).1 (hwf t1 s1 p h)
        refine ⟨o1, ?_, hrest⟩
        rw [heap_append_get, if_pos (heap_get_lt ho1)]
        exact ho1
    · rw [GetOrNew_hit st k s q hk hm] at h ⊢
      exact hwf t1 s1 p h
  · rw [GetOrNew_unrecognised st k s (fun e => hk (Or.inl e)) (fun e => hk (Or.inr e))] at h ⊢
    exact hwf t1 s1 p h

theorem GetOrNew_handle (st : State) (k : BufferPacketType) (s : Nat) (hwf : st.WF)
    (hk : k = RTPBufferPacket ∨ k = RTCPBufferPacket) :
    ∃ p, (GetOrNew st k s).1 = Iface.val (kindType k) (some p) ∧
      tableOf (GetOrNew st k s).2.f (kindType k) s = some p ∧
      isHandleFor (GetOrNew st k s).2 p (kindType k) s = true ∧
      p < (GetOrNew st k s).2.heap.length := by
  obtain ⟨p, h1, ht⟩ := GetOrNew_result st k s hk
  have hh := WF_GetOrNew st k s hwf (kindType k) s p ht
  obtain ⟨o, ho, _⟩ := (isHandleFor_iff _ p _ s).1 hh
  exact ⟨p, h1, ht, hh, heap_get_lt ho⟩

theorem callback_run_twice (cb : Callback) (f : factory) : cb.run (cb.run f) = cb.run f := by
  cases cb with
  | deleteRtcpReader s =>
    simp only [Callback.run]
    congr 1
    funext x
    simp only [GoMap.delete]
    split <;> rfl
  | deleteRtpBuffer s =>
    simp only [Callback.run]
    congr 1
    funext x
    simp only [GoMap.delete]
    split <;> rfl

theorem lookupOf_eq (st : State) (t : ObjType) (s : Nat) :
    lookupOf st t s = Iface.val t (tableOf st.f t s) := by
  cases t <;> rfl

/-! ## The invariant of the reachable states -/

theorem Inv_newState (m : Int) (L : LogrLogger) (n : Int) (l : LogrLogger) :
    (newState m L n l).Inv := by
  refine ⟨?_, ?_, ?_⟩
  · intro p o h
    simp [newState] at h
  · intro p o h
    simp [newState] at h
  · intro t s p h
    cases t <;> simp [newState, NewBufferFactory, tableOf, GoMap.make] at h

theorem Inv_GetOrNew (st : State) (k : BufferPacketType) (s : Nat) (hinv : st.Inv) :
    (GetOrNew st k s).2.Inv := by
  obtain ⟨j1, j2, j3⟩ := hinv
  by_cases hk : k = RTPBufferPacket ∨ k = RTCPBufferPacket
  · rcases hm : tableOf st.f (kindType k) s with _ | q
    · obtain ⟨_, o, hh, h1, h2, h3, h4, ht⟩ := GetOrNew_miss st k s hk hm
      refine ⟨?_, ?_, ?_⟩
      · intro p o1 hp
        rw [hh, heap_append_get] at hp
        split at hp
        · exact j1 p o1 hp
        · split at hp
          · cases hp
            rw [h3, h1, h2]
          · cases hp
      · intro p o1 hp hc
        rw [hh, heap_append_get] at hp
        rw [ht]
        split at hp
        · have hold := j2 p o1 hp hc
          rw [if_neg]
          · exact hold
          · rintro ⟨e1, e2⟩
            rw [e1, e2, hm] at hold
            cases hold
        · split at hp
          · rename_i hlen
            cases hp
            rw [if_pos ⟨h1, h2⟩, hlen]
          · cases hp
      · intro t1 s1 p hp
        rw [ht] at hp
        rw [hh]
        split at hp
        · rename_i hc
          cases hp
          exact ⟨o, by simp, by rw [h1, hc.1], by rw [h2, hc.2], h4⟩
        · obtain ⟨o1, ho1, hrest⟩ := j3 t1 s1 p hp
          refine ⟨o1, ?_, hrest⟩
          rw [heap_append_get, if_pos (heap_get_lt ho1)]
          exact ho1
    · rw [GetOrNew_hit st k s q hk hm]
      exact ⟨j1, j2, j3⟩
  · rw [GetOrNew_unrecognised st k s (fun e => hk (Or.inl e)) (fun e => hk (Or.inr e))]
    exact ⟨j1, j2, j3⟩

theorem Inv_Close (st st1 : State) (p : Ptr) (hinv : st.Inv) (h : Close st p = some st1) :
    st1.Inv := by
  rcases Close_cases st st1 p h with rfl | ⟨o, cb, ho, hc, hcb, rfl⟩
  · exact hinv
  · obtain ⟨j1, j2, j3⟩ := hinv
    have hcb1 : cb = callbackOf o.type o.ssrc := by
      have := j1 p o ho
      rw [hcb] at this
      exact Option.some.inj this
    subst hcb1
    have hp : p < st.heap.length := heap_get_lt ho
    refine ⟨?_, ?_, ?_⟩
    · intro q o1 hq
      simp only [List.getElem?_set] at hq
      split at hq
      · simp only [hp, if_true, Option.some.injEq] at hq
        rw [← hq]
        exact hcb
      · exact j1 q o1 hq
    · intro q o1 hq hc1
      simp only [List.getElem?_set] at hq
      split at hq
      · simp only [hp, if_true, Option.some.injEq] at hq
        rw [← hq] at hc1
        simp at hc1
      · rename_i hne
        have hold := j2 q o1 hq hc1
        simp only [callback_table]
        rw [if_neg]
        · exact hold
        · rintro ⟨e1, e2⟩
          have hp2 := j2 p o ho hc
          rw [e1, e2, hp2] at hold
          exact hne (Option.some.inj hold)
    · intro t s q hq
      simp only [callback_table] at hq
      split at hq
      · cases hq
      · rename_i hne
        obtain ⟨o1, ho1, e1, e2, e3⟩ := j3 t s q hq
        refine ⟨o1, ?_, e1, e2, e3⟩
        simp only [List.getElem?_set]
        rw [if_neg]
        · exact ho1
        · intro e
          subst e
          rw [ho] at ho1
          cases ho1
          exact hne ⟨e1.symm, e2.symm⟩

theorem Inv_reachable (st : State) (h : Reachable st) : st.Inv := by
  induction h with
  | new m L n l => exact Inv_newState m L n l
  | step st st1 op _ hrun ih =>
    cases op with
    | getOrNew k s =>
      simp only [Op.run, Option.some.injEq] at hrun
      rw [← hrun]
      exact Inv_GetOrNew st k s ih
    | getBufferPair s =>
      simp only [Op.run, GetBufferPair, Option.some.injEq] at hrun
      rw [← hrun]; exact ih
    | getBuffer s =>
      simp only [Op.run, GetBuffer, Option.some.injEq] at hrun
      rw [← hrun]; exact ih
    | getRTCPReader s =>
      simp only [Op.run, GetRTCPReader, Option.some.injEq] at hrun
      rw [← hrun]; exact ih
    | close p => exact Inv_Close st st1 p ih hrun

theorem WF_of_Inv (st : State) (h : st.Inv) : st.WF := by
  intro t s p ht
  obtain ⟨o, ho, e1, e2, _⟩ := h.2.2 t s p ht
  rw [isHandleFor_iff]
  refine ⟨o, ho, e1, e2, ?_⟩
  rw [h.1 p o ho, e1, e2]

theorem WF_reachable (st : State) (h : Reachable st) : st.WF :=
  WF_of_Inv st (Inv_reachable st h)

theorem reachable_runOps (ops : List Op) :
    ∀ st st1 : State, Reachable st → runOps st ops = some st1 → Reachable st1 := by
  induction ops with
  | nil =>
    intro st st1 h hrun
    simp only [runOps, Option.some.injEq] at hrun
    rw [← hrun]; exact h
  | cons op ops ih =>
    intro st st1 h hrun
    simp only [runOps] at hrun
    rcases hop : op.run st with _ | st2
    · simp [hop] at hrun
    · simp only [hop] at hrun
      exact ih st2 st1 (Reachable.step st st2 op h hop) hrun

/-! ## The claims -/

/-- C1: for every registry state, recognised kind `k` and SSRC `s`, when
`GetOrNew(k, s)` has returned a handle, then after any sequence of lookups,
`GetOrNew` calls and closing objects in which no close callback for `(k, s)`
runs, `GetOrNew(k, s)` returns the identical handle and leaves the state as it
is, so it constructs no second object. -/
theorem GetOrNew_same_handle (st : State) (k : BufferPacketType) (s : Nat)
    (ops : List Op) (st2 : State)
    (hk : k = RTPBufferPacket ∨ k = RTCPBufferPacket)
    (hrun : runOps (GetOrNew st k s).2 ops = some st2)
    (hno : noCallbackFor (kindType k) s (GetOrNew st k s).2 ops = true) :
    GetOrNew st2 k s = ((GetOrNew st k s).1, st2) := by
  obtain ⟨p, h1, ht⟩ := GetOrNew_result st k s hk
  rw [h1]
  exact GetOrNew_hit st2 k s p hk
    (runOps_table (kindType k) s p ops _ st2 hrun hno ht)

/-- C3: in a well-formed registry state, for a recognised kind `k` and an
SSRC `s`, when `GetOrNew(k, s)` has returned the handle `p1` and the close
callback of `p1` has run, the next `GetOrNew(k, s)` constructs one new object
for `(k, s)` and returns its handle, which differs from the first handle. -/
theorem GetOrNew_after_close (st : State) (k : BufferPacketType) (s : Nat)
    (hwf : st.WF) (hk : k = RTPBufferPacket ∨ k = RTCPBufferPacket) :
    ∃ p1 st2, (GetOrNew st k s).1 = Iface.val (kindType k) (some p1) ∧
      fireOnClose (GetOrNew st k s).2 p1 = some st2 ∧
      (GetOrNew st2 k s).1 = Iface.val (kindType k) (some st2.heap.length) ∧
      (GetOrNew st2 k s).1 ≠ (GetOrNew st k s).1 ∧
      (GetOrNew st2 k s).2.heap.length = st2.heap.length + 1 ∧
      isHandleFor (GetOrNew st2 k s).2 st2.heap.length (kindType k) s = true := by
  obtain ⟨p1, h1, ht, hh, hlt⟩ := GetOrNew_handle st k s hwf hk
  have hfire := fireOnClose_handle _ p1 _ s hh
  refine ⟨p1, _, h1, hfire, ?_⟩
  have hm : tableOf ({ (GetOrNew st k s).2 with
      f := (callbackOf (kindType k) s).run (GetOrNew st k s).2.f } : State).f
      (kindType k) s = none := by
    simp [callback_table]
  obtain ⟨h2, o, hheap, ho1, ho2, ho3, _, _⟩ := GetOrNew_miss _ k s hk hm
  refine ⟨h2, ?_, ?_, ?_⟩
  · rw [h2, h1]
    intro he
    simp only [Iface.val.injEq, Option.some.injEq, true_and] at he
    exact (Nat.ne_of_gt hlt) he
  · rw [hheap]; simp
  · rw [isHandleFor_iff, hheap]
    exact ⟨o, by simp, ho1, ho2, ho3⟩

/-- In a well-formed registry state, when `GetOrNew(RTP, s)` has returned a
buffer and the close callback of that buffer has run, the callback has removed
the key `s` from `rtpBuffers` and has changed no other key and not the other
table, and `GetBuffer(s)` returns the interface that wraps the nil `*buffer`,
which does not compare equal to nil.  The same holds for `GetOrNew(RTCP, s)`,
`GetRTCPReader(s)` and `rtcpReaders`. -/
theorem close_removes_own_key (st : State) (s : Nat) (hwf : st.WF) :
    (∃ p st2, (GetOrNew st RTPBufferPacket s).1 = Iface.val ObjType.buffer (some p) ∧
      fireOnClose (GetOrNew st RTPBufferPacket s).2 p = some st2 ∧
      (GetBuffer st2 s).1 = Iface.val ObjType.buffer none ∧
      (GetBuffer st2 s).1.isNil = false ∧
      st2.f.rtpBuffers s = none ∧
      (∀ s1, s1 ≠ s → st2.f.rtpBuffers s1 = (GetOrNew st RTPBufferPacket s).2.f.rtpBuffers s1) ∧
      st2.f.rtcpReaders = (GetOrNew st RTPBufferPacket s).2.f.rtcpReaders) ∧
    (∃ p st2, (GetOrNew st RTCPBufferPacket s).1 = Iface.val ObjType.reader (some p) ∧
      fireOnClose (GetOrNew st RTCPBufferPacket s).2 p = some st2 ∧
      (GetRTCPReader st2 s).1 = Iface.val ObjType.reader none ∧
      (GetRTCPReader st2 s).1.isNil = false ∧
      st2.f.rtcpReaders s = none ∧
      (∀ s1, s1 ≠ s → st2.f.rtcpReaders s1 = (GetOrNew st RTCPBufferPacket s).2.f.rtcpReaders s1) ∧
      st2.f.rtpBuffers = (GetOrNew st RTCPBufferPacket s).2.f.rtpBuffers) := by
  constructor
  · obtain ⟨p, h1, _, hh, _⟩ := GetOrNew_handle st RTPBufferPacket s hwf (Or.inl rfl)
    have hfire := fireOnClose_handle _ p _ s hh
    refine ⟨p, _, h1, hfire, ?_, rfl, ?_, ?_, ?_⟩
    · simp [GetBuffer, kindType, RTPBufferPacket, RTCPBufferPacket, callbackOf,
        Callback.run, GoMap.delete]
    · simp [kindType, RTPBufferPacket, RTCPBufferPacket, callbackOf, Callback.run, GoMap.delete]
    · intro s1 hs
      simp [kindType, RTPBufferPacket, RTCPBufferPacket, callbackOf, Callback.run, GoMap.delete,
        hs]
    · simp [kindType, RTPBufferPacket, RTCPBufferPacket, callbackOf, Callback.run]
  · obtain ⟨p, h1, _, hh, _⟩ := GetOrNew_handle st RTCPBufferPacket s hwf (Or.inr rfl)
    have hfire := fireOnClose_handle _ p _ s hh
    refine ⟨p, _, h1, hfire, ?_, rfl, ?_, ?_, ?_⟩
    · simp [GetRTCPReader, kindType, callbackOf, Callback.run, GoMap.delete]
    · simp [kindType, callbackOf, Callback.run, GoMap.delete]
    · intro s1 hs
      simp [kindType, callbackOf, Callback.run, GoMap.delete, hs]
    · simp [kindType, callbackOf, Callback.run]

/-- For every registry state and every handle `p` that `GetOrNew` created for
the table of `t` and the key `s`, the close callback of `p` runs twice in a
row without a fault, the second run leaves the state, and so both tables,
exactly as the first run left it, and after both runs the table has no entry
for `s` and its lookup for `s` returns the interface that wraps the nil
pointer, which does not compare equal to nil. -/
theorem double_close_noop (st : State) (p : Ptr) (t : ObjType) (s : Nat)
    (h : isHandleFor st p t s = true) :
    ∃ st2 st3, fireOnClose st p = some st2 ∧ fireOnClose st2 p = some st3 ∧
      st3 = st2 ∧ st3.f.rtpBuffers = st2.f.rtpBuffers ∧
      st3.f.rtcpReaders = st2.f.rtcpReaders ∧
      tableOf st3.f t s = none ∧ lookupOf st3 t s = Iface.val t none ∧
      (lookupOf st3 t s).isNil = false := by
  have h1 := fireOnClose_handle st p t s h
  have hh : isHandleFor { st with f := (callbackOf t s).run st.f } p t s = true := by
    rw [isHandleFor_iff] at h ⊢
    exact h
  have h2 := fireOnClose_handle _ p t s hh
  simp only [callback_run_twice] at h2
  refine ⟨_, _, h1, h2, rfl, rfl, rfl, ?_, ?_, ?_⟩
  · simp [callback_table]
  · rw [lookupOf_eq]
    simp [callback_table]
  · rw [lookupOf_eq]
    rfl

/-- C2: with objects that run their close callback exactly once, when they
close, in every state reached from a new registry by `GetOrNew` calls, lookups
and closing objects, for each kind and SSRC at most one handle that
`GetOrNew` has created is not yet closed, and a handle is such a handle
exactly when it is the entry of the table of its kind under its SSRC. -/
theorem one_live_handle (st : State) (h : Reachable st) :
    (∀ t s p q, isLive st p t s = true → isLive st q t s = true → p = q) ∧
    (∀ t s p, isLive st p t s = true ↔ tableOf st.f t s = some p) := by
  obtain ⟨_, j2, j3⟩ := Inv_reachable st h
  have key : ∀ t s p, isLive st p t s = true → tableOf st.f t s = some p := by
    intro t s p hl
    obtain ⟨o, ho, e1, e2, e3⟩ := (isLive_iff st p t s).1 hl
    rw [← e1, ← e2]
    exact j2 p o ho e3
  refine ⟨?_, ?_⟩
  · intro t s p q hp hq
    have h1 := key t s p hp
    rw [key t s q hq] at h1
    exact (Option.some.inj h1).symm
  · intro t s p
    exact ⟨key t s p, fun ht => (isLive_iff st p t s).2 (j3 t s p ht)⟩

/-- C6: in a well-formed registry state, for a recognised kind `k` and two
distinct SSRCs `s1` and `s2`, `GetOrNew(k, s1)` and `GetOrNew(k, s2)` return
two distinct handles, and the close callback of the `s1` handle leaves the
entry of `s2` in both tables as it is, so the lookup for `s2` still returns
the `s2` handle. -/
theorem distinct_ssrc_independent (st : State) (k : BufferPacketType) (s1 s2 : Nat)
    (hwf : st.WF) (hk : k = RTPBufferPacket ∨ k = RTCPBufferPacket) (hs : s1 ≠ s2) :
    ∃ p1 p2 st3,
      (GetOrNew st k s1).1 = Iface.val (kindType k) (some p1) ∧
      (GetOrNew (GetOrNew st k s1).2 k s2).1 = Iface.val (kindType k) (some p2) ∧
      p1 ≠ p2 ∧
      fireOnClose (GetOrNew (GetOrNew st k s1).2 k s2).2 p1 = some st3 ∧
      st3.f.rtpBuffers s2 = (GetOrNew (GetOrNew st k s1).2 k s2).2.f.rtpBuffers s2 ∧
      st3.f.rtcpReaders s2 = (GetOrNew (GetOrNew st k s1).2 k s2).2.f.rtcpReaders s2 ∧
      lookupOf st3 (kindType k) s2 = Iface.val (kindType k) (some p2) := by
  obtain ⟨p1, h1, ht1, _, _⟩ := GetOrNew_handle st k s1 hwf hk
  have hwf1 := WF_GetOrNew st k s1 hwf
  obtain ⟨p2, h2, ht2, hh2, _⟩ := GetOrNew_handle _ k s2 hwf1 hk
  have hwf2 := WF_GetOrNew _ k s2 hwf1
  have ht1b := GetOrNew_table_mono _ k s2 _ s1 p1 ht1
  have hh1 := hwf2 _ s1 p1 ht1b
  have hfire := fireOnClose_handle _ p1 _ s1 hh1
  have hne : ¬ (s2 = s1) := fun e => hs e.symm
  refine ⟨p1, p2, _, h1, h2, ?_, hfire, ?_, ?_, ?_⟩
  · intro e
    subst e
    obtain ⟨o1, ho1, _, e1, _⟩ := (isHandleFor_iff _ _ _ _).1 hh1
    obtain ⟨o2, ho2, _, e2, _⟩ := (isHandleFor_iff _ _ _ _).1 hh2
    rw [ho1] at ho2
    cases ho2
    exact hs (e1.symm.trans e2)
  · have := callback_table (GetOrNew (GetOrNew st k s1).2 k s2).2.f (kindType k) s1
      ObjType.buffer s2
    simpa [tableOf, hne] using this
  · have := callback_table (GetOrNew (GetOrNew st k s1).2 k s2).2.f (kindType k) s1
      ObjType.reader s2
    simpa [tableOf, hne] using this
  · rw [lookupOf_eq]
    simp only [callback_table]
    rw [if_neg (fun hc => hne hc.2), ht2]

/-- C7: for every registry state, every SSRC and every packet type other than
the RTP and the RTCP kind, `GetOrNew` returns the nil interface and leaves
the state as it is: both tables are unchanged, no object is created and no
callback is registered. -/
theorem GetOrNew_unknown_kind (st : State) (k : BufferPacketType) (s : Nat)
    (h1 : k ≠ RTPBufferPacket) (h2 : k ≠ RTCPBufferPacket) :
    GetOrNew st k s = (Iface.nil, st) ∧ (GetOrNew st k s).1.isNil = true ∧
      (GetOrNew st k s).2.f.rtpBuffers = st.f.rtpBuffers ∧
      (GetOrNew st k s).2.f.rtcpReaders = st.f.rtcpReaders ∧
      (GetOrNew st k s).2.heap = st.heap := by
  rw [GetOrNew_unrecognised st k s h1 h2]
  exact ⟨rfl, rfl, rfl, rfl, rfl⟩

/-- From a state in which neither table has `s`, `GetOrNew(RTP, s)` returns
a new buffer `b`, and then `GetBufferPair(s)` returns the same handle `b` as
its first component and, as its second, the interface that wraps the nil
`*reader`, which does not compare equal to nil. -/
theorem GetBufferPair_buffer_only (st : State) (s : Nat)
    (h1 : st.f.rtpBuffers s = none) (h2 : st.f.rtcpReaders s = none) :
    (GetOrNew st RTPBufferPacket s).1 = Iface.val ObjType.buffer (some st.heap.length) ∧
    (GetBufferPair (GetOrNew st RTPBufferPacket s).2 s).1.1 =
      (GetOrNew st RTPBufferPacket s).1 ∧
    (GetBufferPair (GetOrNew st RTPBufferPacket s).2 s).1.2 = Iface.val ObjType.reader none ∧
    (GetBufferPair (GetOrNew st RTPBufferPacket s).2 s).1.2.isNil = false := by
  have hm : tableOf st.f (kindType RTPBufferPacket) s = none := h1
  obtain ⟨hr, o, _, _, _, _, _, ht⟩ := GetOrNew_miss st RTPBufferPacket s (Or.inl rfl) hm
  have hb := ht ObjType.buffer s
  have hc := ht ObjType.reader s
  simp only [tableOf] at hb hc
  have hk : kindType RTPBufferPacket = ObjType.buffer := by decide
  rw [hk] at hr hb hc
  simp only [true_and, if_true, reduceCtorEq, false_and, if_false] at hb hc
  refine ⟨hr, ?_, ?_, rfl⟩
  · simp only [GetBufferPair, hb, hr]
  · simp only [GetBufferPair, hc, h2]

/-- C9 (what the code does): on a new registry the lookups of an SSRC that
has no entry return an interface that wraps the nil pointer of the table,
and such a value does not compare equal to nil. -/
theorem lookup_missing_not_nil :
    (GetBuffer (newState 1500 LogrLogger.zero 100 LogrLogger.zero) 1001).1 =
      Iface.val ObjType.buffer none ∧
    (GetBuffer (newState 1500 LogrLogger.zero 100 LogrLogger.zero) 1001).1.isNil = false ∧
    (GetRTCPReader (newState 1500 LogrLogger.zero 100 LogrLogger.zero) 1001).1 =
      Iface.val ObjType.reader none ∧
    (GetRTCPReader (newState 1500 LogrLogger.zero 100 LogrLogger.zero) 1001).1.isNil = false ∧
    (GetOrNew (newState 1500 LogrLogger.zero 100 LogrLogger.zero) 3 1001).1.isNil = true := by
  refine ⟨rfl, rfl, rfl, rfl, rfl⟩

/-- C10: the lookups are read-only: for every registry state and SSRC,
`GetBufferPair`, `GetBuffer` and `GetRTCPReader` leave the state, and so both
tables, as it is, and the result of `GetBufferPair` is the pair of the results
of `GetBuffer` and `GetRTCPReader`. -/
theorem lookups_read_only (st : State) (s : Nat) :
    (GetBufferPair st s).2 = st ∧ (GetBuffer st s).2 = st ∧ (GetRTCPReader st s).2 = st ∧
      (GetBufferPair st s).2.f.rtpBuffers = st.f.rtpBuffers ∧
      (GetBufferPair st s).2.f.rtcpReaders = st.f.rtcpReaders ∧
      (GetBufferPair st s).1 = ((GetBuffer st s).1, (GetRTCPReader st s).1) :=
  ⟨rfl, rfl, rfl, rfl, rfl, rfl⟩

/-! ## The claims at the small run -/

theorem GetOrNew_same_handle_witness :
    (RTPBufferPacket = RTPBufferPacket ∨ RTPBufferPacket = RTCPBufferPacket) ∧
    runOps (GetOrNew demoState RTPBufferPacket 1001).2 demoOps = some demoEnd ∧
    noCallbackFor (kindType RTPBufferPacket) 1001
      (GetOrNew demoState RTPBufferPacket 1001).2 demoOps = true ∧
    GetOrNew demoEnd RTPBufferPacket 1001 =
      ((GetOrNew demoState RTPBufferPacket 1001).1, demoEnd) :=
  ⟨Or.inl rfl, rfl, rfl,
    GetOrNew_same_handle demoState RTPBufferPacket 1001 demoOps demoEnd (Or.inl rfl) rfl rfl⟩

theorem one_live_handle_witness :
    Reachable demoEnd ∧
    ((∀ t s p q, isLive demoEnd p t s = true → isLive demoEnd q t s = true → p = q) ∧
      (∀ t s p, isLive demoEnd p t s = true ↔ tableOf demoEnd.f t s = some p)) :=
  ⟨reachable_runOps demoOps demoFirst demoEnd
      (Reachable.step demoState demoFirst (Op.getOrNew RTPBufferPacket 1001)
        (Reachable.new 1500 LogrLogger.zero 100 LogrLogger.zero) rfl) rfl,
    one_live_handle demoEnd
      (reachable_runOps demoOps demoFirst demoEnd
        (Reachable.step demoState demoFirst (Op.getOrNew RTPBufferPacket 1001)
          (Reachable.new 1500 LogrLogger.zero 100 LogrLogger.zero) rfl) rfl)⟩

theorem GetOrNew_after_close_witness :
    demoFirst.WF ∧ (RTPBufferPacket = RTPBufferPacket ∨ RTPBufferPacket = RTCPBufferPacket) ∧
    ∃ p1 st2, (GetOrNew demoFirst RTPBufferPacket 1001).1 =
        Iface.val (kindType RTPBufferPacket) (some p1) ∧
      fireOnClose (GetOrNew demoFirst RTPBufferPacket 1001).2 p1 = some st2 ∧
      (GetOrNew st2 RTPBufferPacket 1001).1 =
        Iface.val (kindType RTPBufferPacket) (some st2.heap.length) ∧
      (GetOrNew st2 RTPBufferPacket 1001).1 ≠ (GetOrNew demoFirst RTPBufferPacket 1001).1 ∧
      (GetOrNew st2 RTPBufferPacket 1001).2.heap.length = st2.heap.length + 1 ∧
      isHandleFor (GetOrNew st2 RTPBufferPacket 1001).2 st2.heap.length
        (kindType RTPBufferPacket) 1001 = true :=
  ⟨WF_GetOrNew demoState RTPBufferPacket 1001
      (WF_newState 1500 LogrLogger.zero 100 LogrLogger.zero),
    Or.inl rfl,
    GetOrNew_after_close demoFirst RTPBufferPacket 1001
      (WF_GetOrNew demoState RTPBufferPacket 1001
        (WF_newState 1500 LogrLogger.zero 100 LogrLogger.zero)) (Or.inl rfl)⟩

theorem distinct_ssrc_independent_witness :
    demoState.WF ∧ (RTCPBufferPacket = RTPBufferPacket ∨ RTCPBufferPacket = RTCPBufferPacket) ∧
    (1001 : Nat) ≠ 1002 ∧
    ∃ p1 p2 st3,
      (GetOrNew demoState RTCPBufferPacket 1001).1 =
        Iface.val (kindType RTCPBufferPacket) (some p1) ∧
      (GetOrNew (GetOrNew demoState RTCPBufferPacket 1001).2 RTCPBufferPacket 1002).1 =
        Iface.val (kindType RTCPBufferPacket) (some p2) ∧
      p1 ≠ p2 ∧
      fireOnClose (GetOrNew (GetOrNew demoState RTCPBufferPacket 1001).2
        RTCPBufferPacket 1002).2 p1 = some st3 ∧
      st3.f.rtpBuffers 1002 = (GetOrNew (GetOrNew demoState RTCPBufferPacket 1001).2
        RTCPBufferPacket 1002).2.f.rtpBuffers 1002 ∧
      st3.f.rtcpReaders 1002 = (GetOrNew (GetOrNew demoState RTCPBufferPacket 1001).2
        RTCPBufferPacket 1002).2.f.rtcpReaders 1002 ∧
      lookupOf st3 (kindType RTCPBufferPacket) 1002 =
        Iface.val (kindType RTCPBufferPacket) (some p2) :=
  ⟨WF_newState 1500 LogrLogger.zero 100 LogrLogger.zero, Or.inr rfl, by decide,
    distinct_ssrc_independent demoState RTCPBufferPacket 1001 1002
      (WF_newState 1500 LogrLogger.zero 100 LogrLogger.zero) (Or.inr rfl) (by decide)⟩

theorem GetOrNew_unknown_kind_witness :
    (3 : BufferPacketType) ≠ RTPBufferPacket ∧ (3 : BufferPacketType) ≠ RTCPBufferPacket ∧
    (GetOrNew demoMid 3 1001 = (Iface.nil, demoMid) ∧
      (GetOrNew demoMid 3 1001).1.isNil = true ∧
      (GetOrNew demoMid 3 1001).2.f.rtpBuffers = demoMid.f.rtpBuffers ∧
      (GetOrNew demoMid 3 1001).2.f.rtcpReaders = demoMid.f.rtcpReaders ∧
      (GetOrNew demoMid 3 1001).2.heap = demoMid.heap) :=
  ⟨by decide, by decide, GetOrNew_unknown_kind demoMid 3 1001 (by decide) (by decide)⟩

/-! ## Entries, pools and sinks -/

/-- C11: for every registry state, an entry of either table that is present
before a call of `GetOrNew` (any packet type, any SSRC) or before a lookup is
present with the same handle after it; these calls neither remove nor replace
an entry. -/
theorem entries_kept (st : State) (k : BufferPacketType) (s : Nat)
    (t1 : ObjType) (s1 : Nat) (p : Ptr) (h : tableOf st.f t1 s1 = some p) :
    tableOf (GetOrNew st k s).2.f t1 s1 = some p ∧
    tableOf (GetBufferPair st s).2.f t1 s1 = some p ∧
    tableOf (GetBuffer st s).2.f t1 s1 = some p ∧
    tableOf (GetRTCPReader st s).2.f t1 s1 = some p :=
  ⟨GetOrNew_table_mono st k s t1 s1 p h, h, h, h⟩

theorem entries_kept_witness :
    tableOf demoMid.f ObjType.reader 1001 = some 1 ∧
    (tableOf (GetOrNew demoMid RTCPBufferPacket 7).2.f ObjType.reader 1001 = some 1 ∧
      tableOf (GetBufferPair demoMid 7).2.f ObjType.reader 1001 = some 1 ∧
      tableOf (GetBuffer demoMid 7).2.f ObjType.reader 1001 = some 1 ∧
      tableOf (GetRTCPReader demoMid 7).2.f ObjType.reader 1001 = some 1) :=
  ⟨rfl, entries_kept demoMid RTCPBufferPacket 7 ObjType.reader 1001 1 rfl⟩

/-- C17: for every registry state, recognised kind `k` and SSRC `s`,
`GetOrNew(k, s)` returns a handle that is not nil and refers to an object, and
right after the call the lookup of the same kind returns that same handle:
`GetBuffer(s)` and the first component of `GetBufferPair(s)` for RTP,
`GetRTCPReader(s)` and the second component for RTCP. -/
theorem GetOrNew_then_lookup (st : State) (k : BufferPacketType) (s : Nat)
    (hk : k = RTPBufferPacket ∨ k = RTCPBufferPacket) :
    (GetOrNew st k s).1.isNil = false ∧
    (∃ p, (GetOrNew st k s).1 = Iface.val (kindType k) (some p)) ∧
    lookupOf (GetOrNew st k s).2 (kindType k) s = (GetOrNew st k s).1 ∧
    (k = RTPBufferPacket →
      (GetBuffer (GetOrNew st k s).2 s).1 = (GetOrNew st k s).1 ∧
      (GetBufferPair (GetOrNew st k s).2 s).1.1 = (GetOrNew st k s).1) ∧
    (k = RTCPBufferPacket →
      (GetRTCPReader (GetOrNew st k s).2 s).1 = (GetOrNew st k s).1 ∧
      (GetBufferPair (GetOrNew st k s).2 s).1.2 = (GetOrNew st k s).1) := by
  obtain ⟨p, h1, ht⟩ := GetOrNew_result st k s hk
  refine ⟨by rw [h1]; rfl, ⟨p, h1⟩, by rw [lookupOf_eq, ht, h1], ?_, ?_⟩
  · intro e
    subst e
    have hb : kindType RTPBufferPacket = ObjType.buffer := by decide
    rw [hb] at h1 ht
    simp only [tableOf] at ht
    simp only [GetBuffer, GetBufferPair, ht, h1, and_self]
  · intro e
    subst e
    have hb : kindType RTCPBufferPacket = ObjType.reader := by decide
    rw [hb] at h1 ht
    simp only [tableOf] at ht
    simp only [GetRTCPReader, GetBufferPair, ht, h1, and_self]

theorem GetOrNew_then_lookup_witness :
    (RTCPBufferPacket = RTPBufferPacket ∨ RTCPBufferPacket = RTCPBufferPacket) ∧
    ((GetOrNew demoFirst RTCPBufferPacket 1001).1.isNil = false ∧
    (∃ p, (GetOrNew demoFirst RTCPBufferPacket 1001).1 =
      Iface.val (kindType RTCPBufferPacket) (some p)) ∧
    lookupOf (GetOrNew demoFirst RTCPBufferPacket 1001).2 (kindType RTCPBufferPacket) 1001 =
      (GetOrNew demoFirst RTCPBufferPacket 1001).1 ∧
    (RTCPBufferPacket = RTPBufferPacket →
      (GetBuffer (GetOrNew demoFirst RTCPBufferPacket 1001).2 1001).1 =
        (GetOrNew demoFirst RTCPBufferPacket 1001).1 ∧
      (GetBufferPair (GetOrNew demoFirst RTCPBufferPacket 1001).2 1001).1.1 =
        (GetOrNew demoFirst RTCPBufferPacket 1001).1) ∧
    (RTCPBufferPacket = RTCPBufferPacket →
      (GetRTCPReader (GetOrNew demoFirst RTCPBufferPacket 1001).2 1001).1 =
        (GetOrNew demoFirst RTCPBufferPacket 1001).1 ∧
      (GetBufferPair (GetOrNew demoFirst RTCPBufferPacket 1001).2 1001).1.2 =
        (GetOrNew demoFirst RTCPBufferPacket 1001).1)) :=
  ⟨Or.inr rfl, GetOrNew_then_lookup demoFirst RTCPBufferPacket 1001 (Or.inr rfl)⟩

theorem intMul_exact (a b : Int) (h1 : -2 ^ 63 ≤ a * b) (h2 : a * b < 2 ^ 63) :
    intMul a b = a * b := by
  unfold intMul Int.bmod
  norm_num at h1 h2 ⊢
  omega

theorem NewBufferFactory_pools (m : Int) (L : LogrLogger) (n : Int) (l : LogrLogger) :
    (NewBufferFactory m L n l).1.videoPool.New () = makeBytes (intMul n m) ∧
    (NewBufferFactory m L n l).1.audioPool.New () = makeBytes (intMul m 25) := by
  unfold NewBufferFactory
  split
  exact ⟨rfl, rfl⟩

theorem makeBytes_length (n : Int) (b : List UInt8) (h : makeBytes n = some b) :
    (b.length : Int) = n := by
  unfold makeBytes at h
  split at h
  · rename_i hn
    simp only [Option.some.injEq] at h
    rw [← h, List.length_replicate]
    exact Int.toNat_of_nonneg hn.1
  · cases h

theorem makeBytes_in_range (n : Int) (h1 : 0 ≤ n) (h2 : n ≤ maxAlloc) :
    makeBytes n = some (List.replicate n.toNat 0) := by
  unfold makeBytes
  rw [if_pos ⟨h1, h2⟩]

/-- C12 (the claim as stated fails): with packets of 1500 bytes and the
capacity 2 ^ 62 the product wraps to 0 in the 64-bit `int`, and the video
pool produces a block of 0 bytes, not of 2 ^ 62 × 1500 bytes. -/
theorem video_block_wraps :
    ((NewBufferFactory 1500 LogrLogger.zero (2 ^ 62) LogrLogger.zero).1.videoPool.New ()).map
      List.length = some 0 ∧
    ((0 : Nat) : Int) ≠ 2 ^ 62 * 1500 := by
  refine ⟨?_, by decide⟩
  rw [(NewBufferFactory_pools 1500 LogrLogger.zero (2 ^ 62) LogrLogger.zero).1]
  have h : intMul (2 ^ 62) 1500 = 0 := by decide
  rw [h]
  rfl

/-- C12 (amended): when the product of the capacity `n` and `maxPktSize` does
not overflow the 64-bit `int`, every block the video pool produces has
exactly `n × maxPktSize` bytes; and when `maxPktSize × 25` does not overflow,
every block the audio pool produces has exactly `25 × maxPktSize` bytes,
whatever `n` is. -/
theorem pool_block_lengths (maxPktSize n : Int) (L l : LogrLogger) :
    (-2 ^ 63 ≤ n * maxPktSize → n * maxPktSize < 2 ^ 63 →
      ∀ b, (NewBufferFactory maxPktSize L n l).1.videoPool.New () = some b →
        (b.length : Int) = n * maxPktSize) ∧
    (-2 ^ 63 ≤ maxPktSize * 25 → maxPktSize * 25 < 2 ^ 63 →
      ∀ a, (NewBufferFactory maxPktSize L n l).1.audioPool.New () = some a →
        (a.length : Int) = 25 * maxPktSize) := by
  obtain ⟨hv, ha⟩ := NewBufferFactory_pools maxPktSize L n l
  constructor
  · intro hlo hhi b hb
    rw [hv, intMul_exact n maxPktSize hlo hhi] at hb
    exact makeBytes_length _ b hb
  · intro hlo hhi a hb
    rw [ha, intMul_exact maxPktSize 25 hlo hhi] at hb
    rw [makeBytes_length _ a hb]
    ring

theorem pool_block_lengths_witness :
    ((NewBufferFactory 1500 LogrLogger.zero 100 sinkA).1.videoPool.New ()).map List.length =
      some 150000 ∧
    ((NewBufferFactory 1500 LogrLogger.zero 100 sinkA).1.audioPool.New ()).map List.length =
      some 37500 ∧
    (-2 ^ 63 ≤ (100 * 1500 : Int) ∧ (100 * 1500 : Int) < 2 ^ 63) ∧
    (∀ b, (NewBufferFactory 1500 LogrLogger.zero 100 sinkA).1.videoPool.New () = some b →
      (b.length : Int) = 100 * 1500) ∧
    (-2 ^ 63 ≤ (1500 * 25 : Int) ∧ (1500 * 25 : Int) < 2 ^ 63) ∧
    (∀ a, (NewBufferFactory 1500 LogrLogger.zero 100 sinkA).1.audioPool.New () = some a →
      (a.length : Int) = 25 * 1500) := by
  obtain ⟨hv, ha⟩ := NewBufferFactory_pools 1500 LogrLogger.zero 100 sinkA
  have h1 : intMul 100 1500 = 150000 := by decide
  have h2 : intMul 1500 25 = 37500 := by decide
  refine ⟨?_, ?_, ⟨by decide, by decide⟩,
    (pool_block_lengths 1500 100 LogrLogger.zero sinkA).1 (by decide) (by decide),
    ⟨by decide, by decide⟩,
    (pool_block_lengths 1500 100 LogrLogger.zero sinkA).2 (by decide) (by decide)⟩
  · rw [hv, h1, makeBytes_in_range 150000 (by decide) (by decide), Option.map_some',
      List.length_replicate]
    rfl
  · rw [ha, h2, makeBytes_in_range 37500 (by decide) (by decide), Option.map_some',
      List.length_replicate]
    rfl

theorem NewBufferFactory_logger (m : Int) (L : LogrLogger) (n : Int) (l : LogrLogger) :
    (NewBufferFactory m L n l).1.logger = (if l = LogrLogger.zero then L else l) ∧
    (NewBufferFactory m L n l).2 = (if l = LogrLogger.zero then L else l) := by
  unfold NewBufferFactory
  by_cases h : l = LogrLogger.zero
  · simp [h]
  · simp [h]

theorem newFactories_Logger (m : Int) (calls : List (Int × LogrLogger)) :
    ∀ L : LogrLogger, (newFactories m L calls).2 = lastSink L (calls.map Prod.snd) := by
  induction calls with
  | nil => intro L; rfl
  | cons c rest ih =>
    intro L
    obtain ⟨n, l⟩ := c
    simp only [newFactories, List.map_cons, lastSink]
    rw [ih, (NewBufferFactory_logger m L n l).2]

/-- C15 (the claim as stated fails): after a construction with the sink A and
a construction with the sink B, a construction that supplies no sink uses B,
the last sink supplied, not A, the first. -/
theorem default_sink_overwritten :
    (NewBufferFactory 1500
      (newFactories 1500 LogrLogger.zero [(100, sinkA), (100, sinkB)]).2
      100 LogrLogger.zero).1.logger = sinkB ∧
    sinkB ≠ sinkA ∧ sinkA ≠ LogrLogger.zero ∧ sinkB ≠ LogrLogger.zero := by
  refine ⟨?_, by decide, by decide, by decide⟩
  rw [(NewBufferFactory_logger _ _ _ _).1, newFactories_Logger]
  decide

/-- C15 (amended): the package default is assigned by every construction that
supplies a sink.  After any sequence of `NewBufferFactory` calls, a
construction that supplies no sink uses the last sink that was supplied
(the initial value of the package variable when none was), and a construction
that supplies a sink uses its own sink and makes it the default. -/
theorem default_sink_last (m : Int) (L : LogrLogger) (calls : List (Int × LogrLogger))
    (n : Int) (l : LogrLogger) (hl : l ≠ LogrLogger.zero) :
    (NewBufferFactory m (newFactories m L calls).2 n LogrLogger.zero).1.logger =
      lastSink L (calls.map Prod.snd) ∧
    (NewBufferFactory m (newFactories m L calls).2 n LogrLogger.zero).2 =
      lastSink L (calls.map Prod.snd) ∧
    (NewBufferFactory m (newFactories m L calls).2 n l).1.logger = l ∧
    (NewBufferFactory m (newFactories m L calls).2 n l).2 = l := by
  obtain ⟨h1, h2⟩ := NewBufferFactory_logger m (newFactories m L calls).2 n LogrLogger.zero
  obtain ⟨h3, h4⟩ := NewBufferFactory_logger m (newFactories m L calls).2 n l
  rw [h1, h2, h3, h4, newFactories_Logger]
  simp [hl]

theorem default_sink_last_witness :
    sinkB ≠ LogrLogger.zero ∧
    ((NewBufferFactory 1500 (newFactories 1500 LogrLogger.zero
        [(100, sinkA), (50, LogrLogger.zero), (100, sinkB), (10, LogrLogger.zero)]).2
        100 LogrLogger.zero).1.logger =
      lastSink LogrLogger.zero
        (List.map Prod.snd
          [(100, sinkA), (50, LogrLogger.zero), (100, sinkB), (10, LogrLogger.zero)]) ∧
    (NewBufferFactory 1500 (newFactories 1500 LogrLogger.zero
        [(100, sinkA), (50, LogrLogger.zero), (100, sinkB), (10, LogrLogger.zero)]).2
        100 LogrLogger.zero).2 =
      lastSink LogrLogger.zero
        (List.map Prod.snd
          [(100, sinkA), (50, LogrLogger.zero), (100, sinkB), (10, LogrLogger.zero)]) ∧
    (NewBufferFactory 1500 (newFactories 1500 LogrLogger.zero
        [(100, sinkA), (50, LogrLogger.zero), (100, sinkB), (10, LogrLogger.zero)]).2
        100 sinkB).1.logger = sinkB ∧
    (NewBufferFactory 1500 (newFactories 1500 LogrLogger.zero
        [(100, sinkA), (50, LogrLogger.zero), (100, sinkB), (10, LogrLogger.zero)]).2
        100 sinkB).2 = sinkB) :=
  ⟨by decide, default_sink_last 1500 LogrLogger.zero
    [(100, sinkA), (50, LogrLogger.zero), (100, sinkB), (10, LogrLogger.zero)]
    100 sinkB (by decide)⟩

/-! ## The writes of `GetOrNew` -/

theorem GetOrNewEffects_hit (st : State) (k : BufferPacketType) (s : Nat) (p : Ptr)
    (hk : k = RTPBufferPacket ∨ k = RTCPBufferPacket)
    (h : tableOf st.f (kindType k) s = some p) : GetOrNewEffects st k s = [] := by
  rcases recognised_cases hk with ⟨rfl, ht⟩ | ⟨rfl, ht⟩
  · rw [ht] at h
    simp only [tableOf] at h
    simp [GetOrNewEffects, RTPBufferPacket, RTCPBufferPacket, h]
  · rw [ht] at h
    simp only [tableOf] at h
    simp [GetOrNewEffects, h]

theorem GetOrNewEffects_miss (st : State) (k : BufferPacketType) (s : Nat)
    (hk : k = RTPBufferPacket ∨ k = RTCPBufferPacket)
    (h : tableOf st.f (kindType k) s = none) :
    GetOrNewEffects st k s =
      [Effect.mapSet (kindType k) s st.heap.length,
        Effect.onClose st.heap.length (callbackOf (kindType k) s)] := by
  rcases recognised_cases hk with ⟨rfl, ht⟩ | ⟨rfl, ht⟩
  · rw [ht] at h ⊢
    simp only [tableOf] at h
    simp [GetOrNewEffects, RTPBufferPacket, RTCPBufferPacket, h, NewBuffer, callbackOf]
  · rw [ht] at h ⊢
    simp only [tableOf] at h
    simp [GetOrNewEffects, h, NewRTCPReader, callbackOf]

/-- C16 (the claim as stated fails): a call of `GetOrNew` for an SSRC that is
in the table of its kind takes the early return; it performs no map
assignment and no registration, and the state after it is the state before. -/
theorem GetOrNew_hit_no_write :
    (RTPBufferPacket = RTPBufferPacket ∨ RTPBufferPacket = RTCPBufferPacket) ∧
    demoFirst.f.rtpBuffers 1001 = some 0 ∧
    GetOrNewEffects demoFirst RTPBufferPacket 1001 = [] ∧
    GetOrNew demoFirst RTPBufferPacket 1001 = (Iface.val ObjType.buffer (some 0), demoFirst) :=
  ⟨Or.inl rfl, rfl, rfl, rfl⟩

/-- C16 (amended): a call of `GetOrNew` with a recognised kind performs at
most one table mutation.  On a hit it writes nothing and leaves the state as
it is.  On a miss it performs exactly one map assignment, at the key `ssrc` of
the table of the kind, which leaves the other table and every other key
unchanged, and exactly one registration of a close callback, on the one
object it constructs. -/
theorem GetOrNew_writes (st : State) (k : BufferPacketType) (s : Nat)
    (hk : k = RTPBufferPacket ∨ k = RTCPBufferPacket) :
    (∀ p, tableOf st.f (kindType k) s = some p →
      GetOrNewEffects st k s = [] ∧ (GetOrNew st k s).2 = st) ∧
    (tableOf st.f (kindType k) s = none →
      GetOrNewEffects st k s =
        [Effect.mapSet (kindType k) s st.heap.length,
          Effect.onClose st.heap.length (callbackOf (kindType k) s)] ∧
      tableOf (GetOrNew st k s).2.f (kindType k) s = some st.heap.length ∧
      (∀ t1 s1, ¬ (t1 = kindType k ∧ s1 = s) →
        tableOf (GetOrNew st k s).2.f t1 s1 = tableOf st.f t1 s1) ∧
      ∃ o : Obj, (GetOrNew st k s).2.heap = st.heap ++ [o] ∧ o.type = kindType k ∧
        o.ssrc = s ∧ o.onClose = some (callbackOf (kindType k) s)) := by
  constructor
  · intro p h
    exact ⟨GetOrNewEffects_hit st k s p hk h, by rw [GetOrNew_hit st k s p hk h]⟩
  · intro h
    obtain ⟨_, o, hh, h1, h2, h3, _, ht⟩ := GetOrNew_miss st k s hk h
    refine ⟨GetOrNewEffects_miss st k s hk h, ?_, ?_, o, hh, h1, h2, h3⟩
    · rw [ht]; simp
    · intro t1 s1 hne
      rw [ht, if_neg hne]

theorem GetOrNew_writes_witness :
    (RTCPBufferPacket = RTPBufferPacket ∨ RTCPBufferPacket = RTCPBufferPacket) ∧
    ((∀ p, tableOf demoFirst.f (kindType RTCPBufferPacket) 1001 = some p →
      GetOrNewEffects demoFirst RTCPBufferPacket 1001 = [] ∧
        (GetOrNew demoFirst RTCPBufferPacket 1001).2 = demoFirst) ∧
    (tableOf demoFirst.f (kindType RTCPBufferPacket) 1001 = none →
      GetOrNewEffects demoFirst RTCPBufferPacket 1001 =
        [Effect.mapSet (kindType RTCPBufferPacket) 1001 demoFirst.heap.length,
          Effect.onClose demoFirst.heap.length (callbackOf (kindType RTCPBufferPacket) 1001)] ∧
      tableOf (GetOrNew demoFirst RTCPBufferPacket 1001).2.f (kindType RTCPBufferPacket) 1001 =
        some demoFirst.heap.length ∧
      (∀ t1 s1, ¬ (t1 = kindType RTCPBufferPacket ∧ s1 = 1001) →
        tableOf (GetOrNew demoFirst RTCPBufferPacket 1001).2.f t1 s1 =
          tableOf demoFirst.f t1 s1) ∧
      ∃ o : Obj, (GetOrNew demoFirst RTCPBufferPacket 1001).2.heap = demoFirst.heap ++ [o] ∧
        o.type = kindType RTCPBufferPacket ∧ o.ssrc = 1001 ∧
        o.onClose = some (callbackOf (kindType RTCPBufferPacket) 1001))) :=
  ⟨Or.inr rfl, GetOrNew_writes demoFirst RTCPBufferPacket 1001 (Or.inr rfl)⟩

/-! ## Callback invocations without the close contract -/

theorem fireOnClose_cases (st st1 : State) (p : Ptr) (h : fireOnClose st p = some st1) :
    ∃ cb : Callback, st1 = { st with f := cb.run st.f } := by
  unfold fireOnClose at h
  rcases ho : st.heap[p]? with _ | o
  · simp [ho] at h
  · simp only [ho] at h
    rcases hcb : o.onClose with _ | cb
    · simp [hcb] at h
    · simp only [hcb, Option.some.injEq] at h
      exact ⟨cb, h.symm⟩

theorem WF_fireOnClose (st st1 : State) (p : Ptr) (hwf : st.WF)
    (h : fireOnClose st p = some st1) : st1.WF := by
  obtain ⟨cb, rfl⟩ := fireOnClose_cases st st1 p h
  obtain ⟨t, s, rfl⟩ := callbackOf_surj cb
  intro t1 s1 q hq
  simp only [callback_table] at hq
  split at hq
  · cases hq
  · have := hwf t1 s1 q hq
    rw [isHandleFor_iff] at this ⊢
    exact this

theorem WF_rawReachable (st : State) (h : RawReachable st) : st.WF := by
  induction h with
  | new m L n l => exact WF_newState m L n l
  | getOrNew st k s _ ih => exact WF_GetOrNew st k s ih
  | onClose st st1 p _ hf ih => exact WF_fireOnClose st st1 p ih hf

/-- C14 (the claim as stated fails): the buffer of SSRC 1001 at address 0 is
acquired, its callback runs, SSRC 1001 is acquired again and gives the buffer
at address 1, and the callback of the buffer at address 0 runs once more: it
deletes the key 1001, so it removes the entry that holds the newer buffer. -/
theorem stale_callback_removes_newer :
    RawReachable demoSecond ∧
    isHandleFor demoSecond 0 ObjType.buffer 1001 = true ∧
    demoSecond.f.rtpBuffers 1001 = some 1 ∧
    fireOnClose demoSecond 0 = some demoStale ∧
    demoStale.f.rtpBuffers 1001 = none ∧ (1 : Ptr) ≠ 0 :=
  ⟨RawReachable.getOrNew demoClosed RTPBufferPacket 1001
      (RawReachable.onClose demoFirst demoClosed 0
        (RawReachable.getOrNew demoState RTPBufferPacket 1001
          (RawReachable.new 1500 LogrLogger.zero 100 LogrLogger.zero)) rfl),
    rfl, rfl, rfl, rfl, by decide⟩

/-- C14 (amended): when every object runs its close callback at most once,
a close never removes the entry of another object.  In every state reached
from a new registry by `GetOrNew` calls, lookups and closing objects, when the
object at `p` closes, a table entry that is no longer the same afterwards was
the entry that held `p`, and it is removed. -/
theorem close_removes_only_own (st st1 : State) (p : Ptr) (t : ObjType) (s : Nat) (q : Ptr)
    (h : Reachable st) (hc : Close st p = some st1)
    (hq : tableOf st.f t s = some q) (hne : tableOf st1.f t s ≠ some q) :
    q = p ∧ tableOf st1.f t s = none := by
  obtain ⟨j1, j2, _⟩ := Inv_reachable st h
  rcases Close_cases st st1 p hc with rfl | ⟨o, cb, ho, hcl, hcb, rfl⟩
  · exact absurd hq hne
  · have hcb1 : cb = callbackOf o.type o.ssrc := by
      have := j1 p o ho
      rw [hcb] at this
      exact Option.some.inj this
    subst hcb1
    simp only [callback_table] at hne ⊢
    by_cases hkey : t = o.type ∧ s = o.ssrc
    · have hp := j2 p o ho hcl
      rw [← hkey.1, ← hkey.2, hq] at hp
      exact ⟨Option.some.inj hp, by rw [if_pos hkey]⟩
    · rw [if_neg hkey] at hne
      exact absurd hq hne

theorem close_removes_only_own_witness :
    Reachable demoMid ∧ Close demoMid 1 = some demoEnd ∧
    tableOf demoMid.f ObjType.reader 1001 = some 1 ∧
    tableOf demoEnd.f ObjType.reader 1001 ≠ some 1 ∧
    ((1 : Ptr) = 1 ∧ tableOf demoEnd.f ObjType.reader 1001 = none) :=
  ⟨reachable_runOps [Op.getOrNew RTCPBufferPacket 1001, Op.getOrNew RTPBufferPacket 7]
      demoFirst demoMid
      (Reachable.step demoState demoFirst (Op.getOrNew RTPBufferPacket 1001)
        (Reachable.new 1500 LogrLogger.zero 100 LogrLogger.zero) rfl) rfl,
    rfl, rfl, by decide,
    close_removes_only_own demoMid demoEnd 1 ObjType.reader 1001 1
      (reachable_runOps [Op.getOrNew RTCPBufferPacket 1001, Op.getOrNew RTPBufferPacket 7]
        demoFirst demoMid
        (Reachable.step demoState demoFirst (Op.getOrNew RTPBufferPacket 1001)
          (Reachable.new 1500 LogrLogger.zero 100 LogrLogger.zero) rfl) rfl)
      rfl rfl (by decide)⟩

/-- C18: in every state reached from a new registry by `GetOrNew` calls and
invocations of close callbacks, the object stored under a key `s` of
`rtpBuffers` is a buffer that was constructed with the SSRC `s`, and its
registered close callback deletes the key `s` of `rtpBuffers`, keeps every
other key and does not touch `rtcpReaders`; the same holds for `rtcpReaders`
with the two tables exchanged. -/
theorem entry_object_matches_key (st : State) (h : RawReachable st) :
    (∀ s p, st.f.rtpBuffers s = some p →
      ∃ o cb, st.heap[p]? = some o ∧ o.type = ObjType.buffer ∧ o.ssrc = s ∧
        o.onClose = some cb ∧
        ∀ f : factory, (cb.run f).rtpBuffers s = none ∧
          (∀ s1, s1 ≠ s → (cb.run f).rtpBuffers s1 = f.rtpBuffers s1) ∧
          (cb.run f).rtcpReaders = f.rtcpReaders) ∧
    (∀ s p, st.f.rtcpReaders s = some p →
      ∃ o cb, st.heap[p]? = some o ∧ o.type = ObjType.reader ∧ o.ssrc = s ∧
        o.onClose = some cb ∧
        ∀ f : factory, (cb.run f).rtcpReaders s = none ∧
          (∀ s1, s1 ≠ s → (cb.run f).rtcpReaders s1 = f.rtcpReaders s1) ∧
          (cb.run f).rtpBuffers = f.rtpBuffers) := by
  have hwf := WF_rawReachable st h
  constructor
  · intro s p hp
    obtain ⟨o, ho, e1, e2, e3⟩ := (isHandleFor_iff st p _ s).1 (hwf ObjType.buffer s p hp)
    refine ⟨o, _, ho, e1, e2, e3, ?_⟩
    intro f
    refine ⟨by simp [callbackOf, Callback.run, GoMap.delete], ?_, rfl⟩
    intro s1 hs
    simp [callbackOf, Callback.run, GoMap.delete, hs]
  · intro s p hp
    obtain ⟨o, ho, e1, e2, e3⟩ := (isHandleFor_iff st p _ s).1 (hwf ObjType.reader s p hp)
    refine ⟨o, _, ho, e1, e2, e3, ?_⟩
    intro f
    refine ⟨by simp [callbackOf, Callback.run, GoMap.delete], ?_, rfl⟩
    intro s1 hs
    simp [callbackOf, Callback.run, GoMap.delete, hs]

theorem entry_object_matches_key_witness :
    RawReachable demoSecond ∧
    ((∀ s p, demoSecond.f.rtpBuffers s = some p →
      ∃ o cb, demoSecond.heap[p]? = some o ∧ o.type = ObjType.buffer ∧ o.ssrc = s ∧
        o.onClose = some cb ∧
        ∀ f : factory, (cb.run f).rtpBuffers s = none ∧
          (∀ s1, s1 ≠ s → (cb.run f).rtpBuffers s1 = f.rtpBuffers s1) ∧
          (cb.run f).rtcpReaders = f.rtcpReaders) ∧
    (∀ s p, demoSecond.f.rtcpReaders s = some p →
      ∃ o cb, demoSecond.heap[p]? = some o ∧ o.type = ObjType.reader ∧ o.ssrc = s ∧
        o.onClose = some cb ∧
        ∀ f : factory, (cb.run f).rtcpReaders s = none ∧
          (∀ s1, s1 ≠ s → (cb.run f).rtcpReaders s1 = f.rtcpReaders s1) ∧
          (cb.run f).rtpBuffers = f.rtpBuffers)) :=
  ⟨RawReachable.getOrNew demoClosed RTPBufferPacket 1001
      (RawReachable.onClose demoFirst demoClosed 0
        (RawReachable.getOrNew demoState RTPBufferPacket 1001
          (RawReachable.new 1500 LogrLogger.zero 100 LogrLogger.zero)) rfl),
    entry_object_matches_key demoSecond
      (RawReachable.getOrNew demoClosed RTPBufferPacket 1001
        (RawReachable.onClose demoFirst demoClosed 0
          (RawReachable.getOrNew demoState RTPBufferPacket 1001
            (RawReachable.new 1500 LogrLogger.zero 100 LogrLogger.zero)) rfl))⟩

/-! ## Lookups of a key that is gone or was never there -/

/-- C4 (what the code does): on a new registry, after `GetOrNew(RTP, 1001)`
and the close callback of the returned buffer, the key 1001 is gone from
`rtpBuffers`, but `GetBuffer(1001)` returns an interface that wraps the nil
`*buffer` and does not compare equal to nil; likewise for
`GetOrNew(RTCP, 1001)`, the callback of the reader and `GetRTCPReader(1001)`. -/
theorem lookup_after_close_not_nil :
    (GetOrNew demoState RTPBufferPacket 1001).1 = Iface.val ObjType.buffer (some 0) ∧
    fireOnClose (GetOrNew demoState RTPBufferPacket 1001).2 0 = some demoClosed ∧
    demoClosed.f.rtpBuffers 1001 = none ∧
    (GetBuffer demoClosed 1001).1 = Iface.val ObjType.buffer none ∧
    (GetBuffer demoClosed 1001).1.isNil = false ∧
    (GetOrNew demoState RTCPBufferPacket 1001).1 = Iface.val ObjType.reader (some 0) ∧
    fireOnClose (GetOrNew demoState RTCPBufferPacket 1001).2 0 = some demoReaderClosed ∧
    demoReaderClosed.f.rtcpReaders 1001 = none ∧
    (GetRTCPReader demoReaderClosed 1001).1 = Iface.val ObjType.reader none ∧
    (GetRTCPReader demoReaderClosed 1001).1.isNil = false :=
  ⟨rfl, rfl, rfl, rfl, rfl, rfl, rfl, rfl, rfl, rfl⟩

/-- C5 (what the code does): on a new registry, after `GetOrNew(RTCP, 1001)`
the close callback of the returned reader runs twice in a row without a
fault and the second run leaves the state of the first, with no entry for
1001; but after both runs `GetRTCPReader(1001)` returns an interface that
wraps the nil `*reader` and does not compare equal to nil. -/
theorem double_close_lookup_not_nil :
    (GetOrNew demoState RTCPBufferPacket 1001).1 = Iface.val ObjType.reader (some 0) ∧
    fireOnClose demoReader 0 = some demoReaderClosed ∧
    fireOnClose demoReaderClosed 0 = some demoReaderClosed ∧
    demoReaderClosed.f.rtcpReaders 1001 = none ∧
    (GetRTCPReader demoReaderClosed 1001).1 = Iface.val ObjType.reader none ∧
    (GetRTCPReader demoReaderClosed 1001).1.isNil = false := by
  refine ⟨rfl, rfl, ?_, rfl, rfl, rfl⟩
  have h2 : (Callback.deleteRtcpReader 1001).run demoReaderClosed.f = demoReaderClosed.f :=
    callback_run_twice (Callback.deleteRtcpReader 1001) demoReader.f
  have h3 : (callbackOf ObjType.reader 1001).run demoReaderClosed.f = demoReaderClosed.f := h2
  rw [fireOnClose_handle demoReaderClosed 0 ObjType.reader 1001 rfl, h3]

/-- C8 (what the code does): on a new registry, where neither table has the
key 1001, `GetOrNew(RTP, 1001)` returns the buffer at address 0, and then
`GetBufferPair(1001)` returns that same handle and, as its second component,
an interface that wraps the nil `*reader`: it does not compare equal to nil,
and the pair is not the pair of the buffer and nil. -/
theorem GetBufferPair_second_not_nil :
    demoState.f.rtpBuffers 1001 = none ∧ demoState.f.rtcpReaders 1001 = none ∧
    (GetOrNew demoState RTPBufferPacket 1001).1 = Iface.val ObjType.buffer (some 0) ∧
    (GetBufferPair (GetOrNew demoState RTPBufferPacket 1001).2 1001).1 =
      (Iface.val ObjType.buffer (some 0), Iface.val ObjType.reader none) ∧
    (GetBufferPair (GetOrNew demoState RTPBufferPacket 1001).2 1001).1.2.isNil = false ∧
    (GetBufferPair (GetOrNew demoState RTPBufferPacket 1001).2 1001).1 ≠
      ((GetOrNew demoState RTPBufferPacket 1001).1, Iface.nil) :=
  ⟨rfl, rfl, rfl, rfl, rfl, by decide⟩

end buffer
